import Mathlib

/-!
# Verification of the conversational-context service core

Shallow embedding of the repository's core (`app/services/ai_chat.py`,
`app/services/redis.py`): the key-value store, the turn serialization
(`json.dumps` / `json.loads` on `{"role": ..., "text": ...}` records),
the prompt assembly and the `chat` orchestration, together with theorems
checking the specification's claims against this embedding.

Conventions: Python strings are Lean `String`s; the external Redis store
is a `Store` value threaded explicitly; exceptions raised by external
collaborators (Redis, the model endpoint) are injected through a `Faults`
record, and the blanket `except Exception` handler of `chat` is the
fall-through to `"Error occurred: " ++ e` on every fault branch.
-/

/-- A conversation turn: the dict `{"role": r, "text": t}` used by
`ChatServiceProvider.chat`. -/
structure Turn where
  role : String
  text : String
deriving DecidableEq, Repr

/-! ## JSON string escaping (model of `json.dumps` with `ensure_ascii=True`) -/

/-- Lowercase hex digit for `n < 16`, as emitted by the CPython
`\uXXXX` escapes. -/
def hexDigit (n : Nat) : Char :=
  if n < 10 then Char.ofNat (48 + n) else Char.ofNat (87 + n)

/-- Four-digit lowercase hex rendering of `n < 0x10000`. -/
def hex4 (n : Nat) : List Char :=
  [hexDigit (n / 4096), hexDigit (n / 256 % 16), hexDigit (n / 16 % 16), hexDigit (n % 16)]

/-- Escape of one character inside a JSON string literal, following
CPython's `py_encode_basestring_ascii`: `"` and `\` and the five
shorthand control characters get two-character escapes, printable ASCII
passes through, everything else becomes `\uXXXX` (a surrogate pair for
code points above `0xFFFF`). -/
def escChar (c : Char) : List Char :=
  if c = '"' then ['\\', '"']
  else if c = '\\' then ['\\', '\\']
  else if c = '\x08' then ['\\', 'b']
  else if c = '\x0c' then ['\\', 'f']
  else if c = '\n' then ['\\', 'n']
  else if c = '\x0d' then ['\\', 'r']
  else if c = '\t' then ['\\', 't']
  else if 0x20 ≤ c.toNat ∧ c.toNat ≤ 0x7e then [c]
  else if c.toNat < 0x10000 then '\\' :: 'u' :: hex4 c.toNat
  else '\\' :: 'u' :: hex4 (0xD800 + (c.toNat - 0x10000) / 0x400) ++
       '\\' :: 'u' :: hex4 (0xDC00 + (c.toNat - 0x10000) % 0x400)

/-- Escape a whole character list. -/
def escList : List Char → List Char
  | [] => []
  | c :: cs => escChar c ++ escList cs

/-- A JSON string literal: `"` ++ escaped content ++ `"`. -/
def encStr (s : String) : String :=
  String.mk ('"' :: (escList s.data ++ ['"']))

/-- `json.dumps({"role": t.role, "text": t.text})` with CPython's default
separators and key order. -/
def encodeTurn (t : Turn) : String :=
  "\x7b\"role\": " ++ encStr t.role ++ ", \"text\": " ++ encStr t.text ++ "\x7d"

/-! ## JSON string parsing (model of `json.loads` on the stored records) -/

/-- Value of one hex digit, upper or lower case, as accepted by the JSON
`\uXXXX` escape. -/
def hexVal (c : Char) : Option Nat :=
  if 48 ≤ c.toNat ∧ c.toNat ≤ 57 then some (c.toNat - 48)
  else if 97 ≤ c.toNat ∧ c.toNat ≤ 102 then some (c.toNat - 87)
  else if 65 ≤ c.toNat ∧ c.toNat ≤ 70 then some (c.toNat - 55)
  else none

/-- Value of a four-digit hex escape body. -/
def hex4Val (a b c d : Char) : Option Nat :=
  match hexVal a, hexVal b, hexVal c, hexVal d with
  | some x, some y, some z, some w => some (((x * 16 + y) * 16 + z) * 16 + w)
  | _, _, _, _ => none

/-- The two-character escapes accepted by the JSON decoder. -/
def escDecode (e : Char) : Option Char :=
  if e = '"' then some '"'
  else if e = '\\' then some '\\'
  else if e = '/' then some '/'
  else if e = 'b' then some '\x08'
  else if e = 'f' then some '\x0c'
  else if e = 'n' then some '\n'
  else if e = 'r' then some '\x0d'
  else if e = 't' then some '\t'
  else none

/-- Outcome of consuming one lexical item of a JSON string body: the
closing quote (with the remaining input), one decoded character (with
the remaining input), or a decode error. -/
inductive PStep where
  | done : List Char → PStep
  | cont : Char → List Char → PStep
  | fail : PStep
deriving DecidableEq, Repr

/-- Read a four-hex-digit escape body and its value. -/
def readHex4 (l : List Char) : Option (Nat × List Char) :=
  match l with
  | a :: b :: c :: d :: rs => (hex4Val a b c d).map (fun n => (n, rs))
  | _ => none

/-- Consume one lexical item of a JSON string body, as `json.loads`'s
`scanstring` does: an unescaped `"` ends the string; `\` introduces a
two-character or `\uXXXX` escape (surrogate pairs recombined; a lone
surrogate is rejected — a CPython string containing a lone surrogate
has no counterpart among Unicode scalar values and the encoder never
produces one); any other character stands for itself. -/
def parseTok (l : List Char) : PStep :=
  match l with
  | [] => PStep.fail
  | c :: rest =>
    if c = '"' then PStep.done rest
    else if c = '\\' then
      match rest with
      | [] => PStep.fail
      | e :: rs =>
        if e = 'u' then
          match readHex4 rs with
          | none => PStep.fail
          | some (n, rs2) =>
            if n < 0xD800 ∨ 0xDFFF < n then PStep.cont (Char.ofNat n) rs2
            else if n ≤ 0xDBFF then
              match rs2 with
              | e2 :: u2 :: rs3 =>
                if e2 = '\\' ∧ u2 = 'u' then
                  match readHex4 rs3 with
                  | none => PStep.fail
                  | some (m, rs4) =>
                    if 0xDC00 ≤ m ∧ m ≤ 0xDFFF then
                      PStep.cont (Char.ofNat (0x10000 + (n - 0xD800) * 0x400 + (m - 0xDC00))) rs4
                    else PStep.fail
                else PStep.fail
              | _ => PStep.fail
            else PStep.fail
        else
          match escDecode e with
          | some dc => PStep.cont dc rs
          | none => PStep.fail
    else PStep.cont c rest

/-- Iterate `parseTok` until the closing quote, collecting the decoded
characters. The fuel only bounds the iteration count; since every step
consumes at least one input character, `l.length` fuel (as supplied by
`parseStr`) never runs out before the parse resolves. -/
def parseLoop : Nat → List Char → Option (List Char × List Char)
  | 0, _ => none
  | f + 1, l =>
    match parseTok l with
    | PStep.done rest => some ([], rest)
    | PStep.cont c rest => (parseLoop f rest).map (fun p => (c :: p.1, p.2))
    | PStep.fail => none

/-- Parse the body of a JSON string literal (the opening `"` already
consumed) up to and including the closing `"`, returning the decoded
content and the remaining input. -/
def parseStr (l : List Char) : Option (List Char × List Char) :=
  parseLoop l.length l

/-- Consume an expected literal sequence from the front of the input,
failing when the input does not start with it. -/
def stripPre : List Char → List Char → Option (List Char)
  | [], l => some l
  | _ :: _, [] => none
  | p :: ps, c :: cs => if c = p then stripPre ps cs else none

/-- The record skeleton up to the opening quote of the role value. -/
def roleHeader : List Char :=
  ['\x7b', '"', 'r', 'o', 'l', 'e', '"', ':', ' ', '"']

/-- The record skeleton between the role value and the opening quote of
the text value. -/
def textHeader : List Char :=
  [',', ' ', '"', 't', 'e', 'x', 't', '"', ':', ' ', '"']

/-- `json.loads` applied to a stored turn record followed by the field
accesses `['role']` and `['text']`, specialised to the record skeleton
that `encodeTurn` writes; any other input is a decode failure (in the
source: an exception swallowed by the blanket handler). -/
def decodeTurn (s : String) : Option Turn :=
  match stripPre roleHeader s.data with
  | none => none
  | some rest =>
    match parseStr rest with
    | none => none
    | some (roleChars, rest2) =>
      match stripPre textHeader rest2 with
      | none => none
      | some rest3 =>
        match parseStr rest3 with
        | none => none
        | some (textChars, rest4) =>
          if rest4 = ['\x7d'] then some ⟨String.mk roleChars, String.mk textChars⟩
          else none

/-! ## The external key-value store (model of `RedisService`'s Redis state) -/

/-- State of the Redis instance that `RedisService` talks to: plain
string keys (system prompts) and list keys (chat logs), as association
lists. -/
structure Store where
  kv : List (String × String)
  lists : List (String × List String)
deriving DecidableEq, Repr

/-- `SET key value` on the plain-key table. -/
def setKV : List (String × String) → String → String → List (String × String)
  | [], k, v => [(k, v)]
  | (k', v') :: rest, k, v =>
    if k' = k then (k, v) :: rest else (k', v') :: setKV rest k v

/-- `GET key` on the plain-key table. -/
def lookupKV : List (String × String) → String → Option String
  | [], _ => none
  | (k', v) :: rest, k => if k' = k then some v else lookupKV rest k

/-- `RPUSH key value`: append to the list at `key`, creating it when
absent. -/
def pushList : List (String × List String) → String → String → List (String × List String)
  | [], k, m => [(k, [m])]
  | (k', ms) :: rest, k, m =>
    if k' = k then (k', ms ++ [m]) :: rest else (k', ms) :: pushList rest k m

/-- `LRANGE key 0 -1`: the whole list at `key`, empty when absent. -/
def lookupList : List (String × List String) → String → List String
  | [], _ => []
  | (k', ms) :: rest, k => if k' = k then ms else lookupList rest k

/-- `RedisService.set_value` (no expiration in any caller). -/
def set_value (st : Store) (key value : String) : Store :=
  { st with kv := setKV st.kv key value }

/-- `RedisService.get_value`. -/
def get_value (st : Store) (key : String) : Option String :=
  lookupKV st.kv key

/-- `RedisService.store_message`: `RPUSH` under the `chat:`-prefixed key. -/
def store_message (st : Store) (chat_id message : String) : Store :=
  { st with lists := pushList st.lists ("chat:" ++ chat_id) message }

/-- `RedisService.get_messages`: `LRANGE chat:<chat_id> 0 -1`. -/
def get_messages (st : Store) (chat_id : String) : List String :=
  lookupList st.lists ("chat:" ++ chat_id)

/-! ## ChatServiceProvider -/

/-- The key `f"{self.system_prompt_key_pre...}:{client_id}"` used for a
tenant's system prompt. -/
def system_prompt_key (client_id : String) : String :=
  "system_prompt:" ++ client_id

/-- `ChatServiceProvider.set_system_prompt`: writes the prompt and
returns `True`; if the store write raises (`fault`), catches it and
returns `False` with the store unchanged. -/
def set_system_prompt (fault : Option String) (st : Store) (client_id prompt : String) :
    Store × Bool :=
  match fault with
  | some _ => (st, false)
  | none => (set_value st (system_prompt_key client_id) prompt, true)

/-- `ChatServiceProvider.get_system_prompt`: direct store read. -/
def get_system_prompt (st : Store) (client_id : String) : Option String :=
  get_value st (system_prompt_key client_id)

/-- The session key `chat_id = f"{user_id}:{client_id}"`. -/
def session_key (user_id client_id : String) : String :=
  user_id ++ ":" ++ client_id

/-- `"\n".join(lines)` (Python `str.join` semantics). -/
def joinNL : List String → String
  | [] => ""
  | [l] => l
  | l :: ls => l ++ "\n" ++ joinNL ls

/-- Lines 53–61 of `ai_chat.py` as the spec's `assemble` function: the
optional `system: <prompt>\n` header, the `"<role>: <text>"` history
lines joined with newline, then `"\nuser: <query>"` appended. -/
def assemble (system_prompt : Option String) (historyLines : List String) (query : String) :
    String :=
  (match system_prompt with
   | some sp => "system: " ++ sp ++ "\n"
   | none => "") ++ joinNL historyLines ++ "\nuser: " ++ query

/-- The history-line generator
`f"{json.loads(m)['role']}: {json.loads(m)['text']}" for m in history`:
formats every stored record, failing (exception) as soon as one record
does not decode. -/
def formatLines : List String → Option (List String)
  | [] => some []
  | m :: ms =>
    match decodeTurn m with
    | some t => (formatLines ms).map (fun ls => (t.role ++ ": " ++ t.text) :: ls)
    | none => none

/-- Outcome of a call into an external collaborator: a normal value or a
raised exception carrying its rendered message `str(e)`. -/
inductive ExcResult (α : Type) where
  | ok : α → ExcResult α
  | exc : String → ExcResult α
deriving DecidableEq, Repr

/-- Failure injection for one `chat` call: each store operation either
works on the `Store` (fault `none`) or raises with the given message;
`invokeResult` is the external model endpoint (`self._llm.invoke`),
returning `response.content` or raising. -/
structure Faults where
  getPromptFault : Option String
  appendUserFault : Option String
  getHistoryFault : Option String
  invokeResult : String → ExcResult String
  appendBotFault : Option String

/-- A `Faults` record in which every store operation succeeds and the
model computes `mdl` on the assembled prompt. -/
def okFaults (mdl : String → String) : Faults :=
  ⟨none, none, none, fun p => ExcResult.ok (mdl p), none⟩

/-- `str(e)` of the `HTTPException(403, ...)` raised for a missing (or
empty, by truthiness) system prompt, as the blanket handler prints it. -/
def http403Message : String :=
  "403: Client not registered or unauthorized."

/-- `str(e)` of the `json.JSONDecodeError` raised on a corrupt stored
record (the exact rendering is irrelevant to every claim; only the
`Error occurred: ` wrapping is observable). -/
def jsonDecodeMessage : String :=
  "json decode failure"

/-- `ChatServiceProvider.chat` (lines 35–72 of `ai_chat.py`): the whole
body runs inside `try: ... except Exception as e: return
f"Error occurred: {e}"`, so every raised exception — including the
`HTTPException` for an unregistered client and any store failure after
the user turn was appended — becomes an `"Error occurred: ..."` string,
and state changes made before the raise persist. Returns the reply (or
error string) together with the store as left behind. -/
def chat (f : Faults) (st : Store) (user_id client_id query : String) : String × Store :=
  let chat_id := session_key user_id client_id
  match f.getPromptFault with
  | some e => ("Error occurred: " ++ e, st)
  | none =>
    match get_system_prompt st client_id with
    | none => ("Error occurred: " ++ http403Message, st)
    | some sp =>
      if sp = "" then ("Error occurred: " ++ http403Message, st)
      else
        match f.appendUserFault with
        | some e => ("Error occurred: " ++ e, st)
        | none =>
          let st1 := store_message st chat_id (encodeTurn ⟨"user", query⟩)
          match f.getHistoryFault with
          | some e => ("Error occurred: " ++ e, st1)
          | none =>
            match formatLines (get_messages st1 chat_id) with
            | none => ("Error occurred: " ++ jsonDecodeMessage, st1)
            | some lines =>
              let prompt := assemble (some sp) lines query
              match f.invokeResult prompt with
              | ExcResult.exc e => ("Error occurred: " ++ e, st1)
              | ExcResult.ok reply =>
                match f.appendBotFault with
                | some e => ("Error occurred: " ++ e, st1)
                | none => (reply, store_message st1 chat_id (encodeTurn ⟨"assistant", reply⟩))

/-- Every record in the stored log for `chat_id` decodes as a `Turn`. -/
def WellFormedLog (st : Store) (chat_id : String) : Prop :=
  ∀ m ∈ get_messages st chat_id, (decodeTurn m).isSome

/-! ## Round trip of the turn serialization -/

/-- Decoding a hex digit the encoder emitted gives back its value. -/
theorem hexVal_hexDigit : ∀ k, k < 16 → hexVal (hexDigit k) = some k := by decide

/-- Decoding the four hex digits of `hex4 n` gives back `n`. -/
theorem hex4Val_digits (n : Nat) (h : n < 65536) :
    hex4Val (hexDigit (n / 4096)) (hexDigit (n / 256 % 16)) (hexDigit (n / 16 % 16))
      (hexDigit (n % 16)) = some n := by
  have h1 := hexVal_hexDigit (n / 4096) (by omega)
  have h2 := hexVal_hexDigit (n / 256 % 16) (by omega)
  have h3 := hexVal_hexDigit (n / 16 % 16) (by omega)
  have h4 := hexVal_hexDigit (n % 16) (by omega)
  simp only [hex4Val, h1, h2, h3, h4]
  congr 1
  omega

/-- Unicode scalar value bounds of a `Char`, at the `Nat` level. -/
theorem char_toNat_valid (c : Char) :
    c.toNat < 0xD800 ∨ (0xDFFF < c.toNat ∧ c.toNat < 0x110000) := by
  rcases c.valid with h | ⟨hl, hr⟩
  · exact Or.inl h
  · exact Or.inr ⟨hl, hr⟩


/-! ## Round trip of the turn serialization -/

/-- Unfolding of `readHex4` on a four-character prefix. -/
theorem readHex4_cons (a b c d : Char) (rs : List Char) :
    readHex4 (a :: b :: c :: d :: rs) = (hex4Val a b c d).map (fun n => (n, rs)) := rfl

/-- Reading back the four digits `hex4` emitted yields the value. -/
theorem readHex4_hex4 (n : Nat) (h : n < 65536) (rest : List Char) :
    readHex4 (hex4 n ++ rest) = some (n, rest) := by
  simp [readHex4, hex4, hex4Val_digits n h]

/-- Token step: an unescaped closing quote ends the string body. -/
theorem parseTok_quote (rest : List Char) : parseTok ('"' :: rest) = PStep.done rest := rfl

/-- Token step: a plain character stands for itself. -/
theorem parseTok_plain (c : Char) (rest : List Char) (h1 : c ≠ '"') (h2 : c ≠ '\\') :
    parseTok (c :: rest) = PStep.cont c rest := by
  simp [parseTok, h1, h2]

/-- Token step: a `\uXXXX` escape outside the surrogate range decodes to
its code point. -/
theorem parseTok_uEsc (rs : List Char) (n : Nat) (rs2 : List Char)
    (hx : readHex4 rs = some (n, rs2)) (hn : n < 0xD800 ∨ 0xDFFF < n) :
    parseTok ('\\' :: 'u' :: rs) = PStep.cont (Char.ofNat n) rs2 := by
  simp [parseTok, hx, hn]

/-- Token step: a high surrogate escape followed by a low surrogate
escape decodes to the combined code point. -/
theorem parseTok_uPair (a b c d : Char) (n m : Nat) (rs3 rs4 : List Char)
    (hx0 : hex4Val a b c d = some n) (hn1 : 0xD800 ≤ n) (hn2 : n ≤ 0xDBFF)
    (hx : readHex4 rs3 = some (m, rs4)) (hm1 : 0xDC00 ≤ m) (hm2 : m ≤ 0xDFFF) :
    parseTok ('\\' :: 'u' :: a :: b :: c :: d :: '\\' :: 'u' :: rs3) =
      PStep.cont (Char.ofNat (0x10000 + (n - 0xD800) * 0x400 + (m - 0xDC00))) rs4 := by
  have hn : ¬(n < 0xD800 ∨ 0xDFFF < n) := by omega
  simp [parseTok, readHex4_cons, hx0, hx, hn, hn2, hm1, hm2]

/-- Loop step: a `done` token ends the parse. -/
theorem parseLoop_done (fuel : Nat) (l rest : List Char)
    (htok : parseTok l = PStep.done rest) :
    parseLoop (fuel + 1) l = some ([], rest) := by
  simp [parseLoop, htok]

/-- Loop step: a `cont` token prepends its character. -/
theorem parseLoop_cont (fuel : Nat) (l : List Char) (c : Char) (rest : List Char)
    (htok : parseTok l = PStep.cont c rest) :
    parseLoop (fuel + 1) l = (parseLoop fuel rest).map (fun p => (c :: p.1, p.2)) := by
  simp [parseLoop, htok]

/-- The parser loop inverts the escaper whenever the fuel covers the
input length: parsing the escape of `s` followed by a closing quote
yields `s` and the remaining input. -/
theorem parseLoop_escList (s : List Char) : ∀ (rest : List Char) (fuel : Nat),
    (escList s ++ '"' :: rest).length ≤ fuel →
    parseLoop fuel (escList s ++ '"' :: rest) = some (s, rest) := by
  induction s with
  | nil =>
    intro rest fuel h
    simp only [escList, List.nil_append, List.length_cons] at h ⊢
    cases fuel with
    | zero => omega
    | succ f => rw [parseLoop_done f _ _ (parseTok_quote rest)]
  | cons c cs ih =>
    intro rest fuel h
    rw [escList, List.append_assoc] at h ⊢
    have hlen1 : 1 ≤ (escChar c).length := by
      unfold escChar
      split_ifs <;> simp [hex4]
    have htot : (escChar c).length + (escList cs ++ '"' :: rest).length ≤ fuel := by
      rw [List.length_append] at h
      exact h
    cases fuel with
    | zero => omega
    | succ f =>
    have hf : (escList cs ++ '"' :: rest).length ≤ f := by omega
    have hihf := ih rest f hf
    by_cases h1 : c = '"'
    · subst h1
      rw [show escChar '"' = ['\\', '"'] from rfl]
      simp only [List.cons_append, List.nil_append]
      rw [parseLoop_cont f _ _ _ (show parseTok ('\\' :: '"' :: (escList cs ++ '"' :: rest)) =
        PStep.cont '"' (escList cs ++ '"' :: rest) from rfl), hihf]
      rfl
    by_cases h2 : c = '\\'
    · subst h2
      rw [show escChar '\\' = ['\\', '\\'] from rfl]
      simp only [List.cons_append, List.nil_append]
      rw [parseLoop_cont f _ _ _ (show parseTok ('\\' :: '\\' :: (escList cs ++ '"' :: rest)) =
        PStep.cont '\\' (escList cs ++ '"' :: rest) from rfl), hihf]
      rfl
    by_cases h3 : c = '\x08'
    · subst h3
      rw [show escChar '\x08' = ['\\', 'b'] from rfl]
      simp only [List.cons_append, List.nil_append]
      rw [parseLoop_cont f _ _ _ (show parseTok ('\\' :: 'b' :: (escList cs ++ '"' :: rest)) =
        PStep.cont '\x08' (escList cs ++ '"' :: rest) from rfl), hihf]
      rfl
    by_cases h4 : c = '\x0c'
    · subst h4
      rw [show escChar '\x0c' = ['\\', 'f'] from rfl]
      simp only [List.cons_append, List.nil_append]
      rw [parseLoop_cont f _ _ _ (show parseTok ('\\' :: 'f' :: (escList cs ++ '"' :: rest)) =
        PStep.cont '\x0c' (escList cs ++ '"' :: rest) from rfl), hihf]
      rfl
    by_cases h5 : c = '\n'
    · subst h5
      rw [show escChar '\n' = ['\\', 'n'] from rfl]
      simp only [List.cons_append, List.nil_append]
      rw [parseLoop_cont f _ _ _ (show parseTok ('\\' :: 'n' :: (escList cs ++ '"' :: rest)) =
        PStep.cont '\n' (escList cs ++ '"' :: rest) from rfl), hihf]
      rfl
    by_cases h6 : c = '\x0d'
    · subst h6
      rw [show escChar '\x0d' = ['\\', 'r'] from rfl]
      simp only [List.cons_append, List.nil_append]
      rw [parseLoop_cont f _ _ _ (show parseTok ('\\' :: 'r' :: (escList cs ++ '"' :: rest)) =
        PStep.cont '\x0d' (escList cs ++ '"' :: rest) from rfl), hihf]
      rfl
    by_cases h7 : c = '\t'
    · subst h7
      rw [show escChar '\t' = ['\\', 't'] from rfl]
      simp only [List.cons_append, List.nil_append]
      rw [parseLoop_cont f _ _ _ (show parseTok ('\\' :: 't' :: (escList cs ++ '"' :: rest)) =
        PStep.cont '\t' (escList cs ++ '"' :: rest) from rfl), hihf]
      rfl
    by_cases h8 : 0x20 ≤ c.toNat ∧ c.toNat ≤ 0x7e
    · rw [show escChar c = [c] from by
        rw [escChar, if_neg h1, if_neg h2, if_neg h3, if_neg h4, if_neg h5, if_neg h6,
          if_neg h7, if_pos h8]]
      simp only [List.cons_append, List.nil_append]
      rw [parseLoop_cont f _ _ _ (parseTok_plain c _ h1 h2), hihf]
      rfl
    by_cases h9 : c.toNat < 0x10000
    · have hcond : c.toNat < 0xD800 ∨ 0xDFFF < c.toNat := by
        rcases char_toNat_valid c with hv | ⟨hv1, _⟩
        · exact Or.inl hv
        · exact Or.inr hv1
      rw [show escChar c = '\\' :: 'u' :: hex4 c.toNat from by
        rw [escChar, if_neg h1, if_neg h2, if_neg h3, if_neg h4, if_neg h5, if_neg h6,
          if_neg h7, if_neg h8, if_pos h9]]
      simp only [hex4, List.cons_append, List.nil_append]
      have hx : readHex4 (hexDigit (c.toNat / 4096) :: hexDigit (c.toNat / 256 % 16) ::
          hexDigit (c.toNat / 16 % 16) :: hexDigit (c.toNat % 16) ::
          (escList cs ++ '"' :: rest)) = some (c.toNat, escList cs ++ '"' :: rest) := by
        rw [readHex4_cons, hex4Val_digits c.toNat h9]
        rfl
      rw [parseLoop_cont f _ _ _ (parseTok_uEsc _ _ _ hx hcond), hihf]
      simp [Char.ofNat_toNat]
    · have hvv : c.toNat < 0x110000 := by
        rcases char_toNat_valid c with hv | ⟨_, hv2⟩
        · omega
        · exact hv2
      have hge : 0x10000 ≤ c.toNat := by omega
      rw [show escChar c = '\\' :: 'u' :: hex4 (0xD800 + (c.toNat - 0x10000) / 0x400) ++
          '\\' :: 'u' :: hex4 (0xDC00 + (c.toNat - 0x10000) % 0x400) from by
        rw [escChar, if_neg h1, if_neg h2, if_neg h3, if_neg h4, if_neg h5, if_neg h6,
          if_neg h7, if_neg h8, if_neg h9]]
      simp only [hex4, List.cons_append, List.nil_append, List.append_assoc]
      have hx0 := hex4Val_digits (0xD800 + (c.toNat - 0x10000) / 0x400) (by omega)
      have hx : readHex4 (hexDigit ((0xDC00 + (c.toNat - 0x10000) % 0x400) / 4096) ::
          hexDigit ((0xDC00 + (c.toNat - 0x10000) % 0x400) / 256 % 16) ::
          hexDigit ((0xDC00 + (c.toNat - 0x10000) % 0x400) / 16 % 16) ::
          hexDigit ((0xDC00 + (c.toNat - 0x10000) % 0x400) % 16) ::
          (escList cs ++ '"' :: rest)) =
          some (0xDC00 + (c.toNat - 0x10000) % 0x400, escList cs ++ '"' :: rest) := by
        rw [readHex4_cons, hex4Val_digits (0xDC00 + (c.toNat - 0x10000) % 0x400) (by omega)]
        rfl
      have hchar : Char.ofNat (0x10000 +
          (0xD800 + (c.toNat - 0x10000) / 0x400 - 0xD800) * 0x400 +
          (0xDC00 + (c.toNat - 0x10000) % 0x400 - 0xDC00)) = c := by
        have harith : 0x10000 + (0xD800 + (c.toNat - 0x10000) / 0x400 - 0xD800) * 0x400 +
            (0xDC00 + (c.toNat - 0x10000) % 0x400 - 0xDC00) = c.toNat := by omega
        rw [harith, Char.ofNat_toNat]
      rw [parseLoop_cont f _ _ _
        (parseTok_uPair _ _ _ _ _ _ _ _ hx0 (by omega) (by omega) hx (by omega) (by omega))]
      rw [hihf]
      simp only [hchar]
      rfl

/-- The JSON string parser inverts the escaper. -/
theorem parseStr_escList (s rest : List Char) :
    parseStr (escList s ++ '"' :: rest) = some (s, rest) :=
  parseLoop_escList s rest _ (Nat.le_refl _)

/-- Consuming a literal sequence that is present succeeds and leaves the
remainder. -/
theorem stripPre_append (ps : List Char) : ∀ l : List Char, stripPre ps (ps ++ l) = some l := by
  induction ps with
  | nil => intro l; simp [stripPre]
  | cons p ps ih => intro l; simp [stripPre, ih]

/-- Round trip of the full record serialization, for every `Turn`. -/
theorem decodeTurn_encodeTurn (t : Turn) : decodeTurn (encodeTurn t) = some t := by
  obtain ⟨r, x⟩ := t
  cases r with
  | mk rl =>
    cases x with
    | mk xl =>
      have hdata : (encodeTurn ⟨String.mk rl, String.mk xl⟩).data =
          roleHeader ++ (escList rl ++ '"' ::
            (textHeader ++ (escList xl ++ '"' :: ['\x7d']))) := by
        simp [encodeTurn, encStr, roleHeader, textHeader]
      simp [decodeTurn, hdata, stripPre_append, parseStr_escList]

/-! ## Store lemmas -/

/-- `RPUSH` then `LRANGE` on the same key sees the appended element. -/
theorem lookupList_pushList (ls : List (String × List String)) (k m : String) :
    lookupList (pushList ls k m) k = lookupList ls k ++ [m] := by
  induction ls with
  | nil => simp [pushList, lookupList]
  | cons kv rest ih =>
    obtain ⟨k', ms⟩ := kv
    by_cases hk : k' = k
    · simp [pushList, lookupList, hk]
    · simp [pushList, lookupList, hk, ih]

/-- Appending a message leaves every other key's list unchanged. -/
theorem lookupList_pushList_ne (ls : List (String × List String)) (k k' m : String)
    (h : k ≠ k') :
    lookupList (pushList ls k m) k' = lookupList ls k' := by
  induction ls with
  | nil => simp [pushList, lookupList, h]
  | cons kv rest ih =>
    obtain ⟨k0, ms⟩ := kv
    by_cases hk : k0 = k
    · subst hk
      simp [pushList, lookupList, h]
    · simp [pushList, lookupList, hk, ih]

/-- `SET` then `GET` on the same key sees the written value. -/
theorem lookupKV_setKV (kv : List (String × String)) (k v : String) :
    lookupKV (setKV kv k v) k = some v := by
  induction kv with
  | nil => simp [setKV, lookupKV]
  | cons e rest ih =>
    obtain ⟨k', v'⟩ := e
    by_cases hk : k' = k
    · simp [setKV, lookupKV, hk]
    · simp [setKV, lookupKV, hk, ih]

/-- Reading the log after `store_message` on the same session sees the
appended record at the tail. -/
theorem get_messages_store_message (st : Store) (cid m : String) :
    get_messages (store_message st cid m) cid = get_messages st cid ++ [m] := by
  simp [get_messages, store_message, lookupList_pushList]

/-- `store_message` does not touch the prompt table. -/
theorem get_system_prompt_store_message (st : Store) (cid m pid : String) :
    get_system_prompt (store_message st cid m) pid = get_system_prompt st pid := rfl

/-- A freshly set system prompt is read back verbatim. -/
theorem get_system_prompt_set (st : Store) (cid prompt : String) :
    get_system_prompt (set_value st (system_prompt_key cid) prompt) cid = some prompt := by
  simp [get_system_prompt, get_value, set_value, lookupKV_setKV]

/-! ## Assembly lemmas -/

/-- A log whose records all decode formats successfully. -/
theorem formatLines_exists (ms : List String) (h : ∀ m ∈ ms, (decodeTurn m).isSome) :
    ∃ ls, formatLines ms = some ls := by
  induction ms with
  | nil => exact ⟨[], rfl⟩
  | cons m ms ih =>
    obtain ⟨t, ht⟩ := Option.isSome_iff_exists.mp (h m (by simp))
    obtain ⟨ls, hls⟩ := ih (fun m' hm' => h m' (by simp [hm']))
    exact ⟨(t.role ++ ": " ++ t.text) :: ls, by simp [formatLines, ht, hls]⟩

/-- Formatting a log with one freshly encoded record appended yields the
old lines plus that record's line. -/
theorem formatLines_append (ms : List String) : ∀ (ls : List String) (t : Turn),
    formatLines ms = some ls →
    formatLines (ms ++ [encodeTurn t]) = some (ls ++ [t.role ++ ": " ++ t.text]) := by
  induction ms with
  | nil =>
    intro ls t h
    simp only [formatLines] at h
    cases h
    simp [formatLines, decodeTurn_encodeTurn]
  | cons m ms ih =>
    intro ls t h
    simp only [formatLines] at h
    cases hd : decodeTurn m with
    | none => rw [hd] at h; cases h
    | some tm =>
      rw [hd] at h
      cases hfmt : formatLines ms with
      | none => rw [hfmt] at h; cases h
      | some ls0 =>
        rw [hfmt] at h
        simp only [Option.map_some'] at h
        cases h
        have hih := ih ls0 t hfmt
        rw [List.cons_append]
        simp [formatLines, hd, hih]

/-- `joinNL` of a list ending in `x` is some text followed by `x`. -/
theorem joinNL_append_one (ls : List String) (x : String) :
    ∃ pre : String, joinNL (ls ++ [x]) = pre ++ x := by
  induction ls with
  | nil =>
    refine ⟨"", ?_⟩
    apply String.ext
    simp [joinNL]
  | cons a ls ih =>
    cases ls with
    | nil => exact ⟨a ++ "\n", rfl⟩
    | cons b ls' =>
      obtain ⟨pre, hp⟩ := ih
      refine ⟨a ++ "\n" ++ pre, ?_⟩
      rw [List.cons_append, List.cons_append]
      rw [show joinNL (a :: b :: (ls' ++ [x])) = a ++ "\n" ++ joinNL (b :: (ls' ++ [x])) from rfl]
      rw [List.cons_append] at hp
      rw [hp]
      simp [String.append_assoc]

/-! ## Chat orchestration lemmas -/

/-- Unfolding of `chat` through the success prefix of the state machine
(prompt registered and non-empty, both early store operations healthy,
history well-formed), leaving the model call and the assistant append
open. -/
theorem chat_success_unfold (f : Faults) (st : Store) (uid cid q sp : String) (ls : List String)
    (hf1 : f.getPromptFault = none) (hp : get_system_prompt st cid = some sp) (hsp : sp ≠ "")
    (hf2 : f.appendUserFault = none) (hf3 : f.getHistoryFault = none)
    (hfmt : formatLines (get_messages (store_message st (session_key uid cid)
      (encodeTurn ⟨"user", q⟩)) (session_key uid cid)) = some ls) :
    chat f st uid cid q =
      (match f.invokeResult (assemble (some sp) ls q) with
       | ExcResult.exc e => ("Error occurred: " ++ e,
           store_message st (session_key uid cid) (encodeTurn ⟨"user", q⟩))
       | ExcResult.ok reply =>
         match f.appendBotFault with
         | some e => ("Error occurred: " ++ e,
             store_message st (session_key uid cid) (encodeTurn ⟨"user", q⟩))
         | none => (reply, store_message
             (store_message st (session_key uid cid) (encodeTurn ⟨"user", q⟩))
             (session_key uid cid) (encodeTurn ⟨"assistant", reply⟩))) := by
  simp [chat, hf1, hp, hsp, hf2, hf3, hfmt]

/-- An `"Error occurred: "`-wrapped diagnostic is never the empty
string. -/
theorem error_string_ne_empty (e : String) : "Error occurred: " ++ e ≠ "" := by
  intro h
  have hl := congrArg String.length h
  rw [String.length_append] at hl
  rw [show ("Error occurred: " : String).length = 16 from rfl] at hl
  rw [show ("" : String).length = 0 from rfl] at hl
  omega

/-- The well-formed-log hypothesis transfers over the user-turn append
and yields the formatted lines. -/
theorem formatLines_after_user_append (st : Store) (uid cid q : String)
    (hwf : WellFormedLog st (session_key uid cid)) :
    ∃ ls0, formatLines (get_messages st (session_key uid cid)) = some ls0 ∧
      formatLines (get_messages (store_message st (session_key uid cid)
        (encodeTurn ⟨"user", q⟩)) (session_key uid cid)) =
        some (ls0 ++ ["user" ++ ": " ++ q]) := by
  obtain ⟨ls0, hls0⟩ := formatLines_exists _ hwf
  refine ⟨ls0, hls0, ?_⟩
  rw [get_messages_store_message]
  exact formatLines_append _ ls0 ⟨"user", q⟩ hls0

/-! ## Claim theorems -/

/-- **C1.** For every `client_id` for which no system prompt was ever
registered (and the prompt read itself healthy), `chat` returns the
`UnregisteredClient` rejection — the fixed 403 diagnostic raised by the
`HTTPException`, distinct from any store-failure message — and leaves
the store untouched, so no `Turn` is appended to any conversation
log. -/
theorem chat_unregistered_client_rejected (f : Faults) (st : Store) (uid cid q : String)
    (hp : get_system_prompt st cid = none) (hf : f.getPromptFault = none) :
    chat f st uid cid q = ("Error occurred: " ++ http403Message, st) := by
  simp [chat, hf, hp]

/-- Witness for C1 at a concrete never-registered client. -/
theorem chat_unregistered_client_rejected_witness :
    get_system_prompt ⟨[], []⟩ "c" = none ∧
    chat (okFaults id) ⟨[], []⟩ "u" "c" "q" =
      ("Error occurred: " ++ http403Message, ⟨[], []⟩) :=
  ⟨rfl, chat_unregistered_client_rejected (okFaults id) ⟨[], []⟩ "u" "c" "q" rfl rfl⟩

/-- **C2 counterexample.** After `set_system_prompt c ""` succeeds, the
prompt reads back as `some ""` — but a subsequent `chat` still fails
with the `UnregisteredClient` rejection, because `if system_prompt:`
treats the empty string as falsy. -/
theorem chat_empty_prompt_counterexample :
    (set_system_prompt none ⟨[], []⟩ "c" "").2 = true ∧
    get_system_prompt (set_system_prompt none ⟨[], []⟩ "c" "").1 "c" = some "" ∧
    (chat (okFaults id) (set_system_prompt none ⟨[], []⟩ "c" "").1 "u" "c" "q").1 =
      "Error occurred: " ++ http403Message := by
  decide

/-- **C2 amended.** The empty string is stored and read back as a value
distinct from absence (`some ""`, not `none`), but the orchestrator's
truthiness test treats it like an unregistered client: `chat` fails with
the `UnregisteredClient` rejection and leaves the store unchanged. -/
theorem empty_prompt_stored_but_rejected (st : Store) (uid cid q : String) (f : Faults)
    (hf : f.getPromptFault = none) :
    get_system_prompt (set_system_prompt none st cid "").1 cid = some "" ∧
    chat f (set_system_prompt none st cid "").1 uid cid q =
      ("Error occurred: " ++ http403Message, (set_system_prompt none st cid "").1) := by
  have hgp : get_system_prompt (set_system_prompt none st cid "").1 cid = some "" := by
    simp [set_system_prompt, get_system_prompt_set]
  exact ⟨hgp, by simp [chat, hf, hgp]⟩

/-- Witness for the amended C2 at a concrete client. -/
theorem empty_prompt_stored_but_rejected_witness :
    (okFaults id).getPromptFault = none ∧
    (get_system_prompt (set_system_prompt none ⟨[], []⟩ "c" "").1 "c" = some "" ∧
      chat (okFaults id) (set_system_prompt none ⟨[], []⟩ "c" "").1 "u" "c" "q" =
        ("Error occurred: " ++ http403Message, (set_system_prompt none ⟨[], []⟩ "c" "").1)) :=
  ⟨rfl, empty_prompt_stored_but_rejected ⟨[], []⟩ "u" "c" "q" (okFaults id) rfl⟩

/-- **C3 counterexample.** The model reply is `"4"` and only the
assistant-turn append raises (`"boom"`): `chat` does not return the
reply — the blanket handler replaces it with the diagnostic string. -/
theorem assistant_append_failure_counterexample :
    (chat ⟨none, none, none, fun _ => ExcResult.ok "4", some "boom"⟩
      (set_system_prompt none ⟨[], []⟩ "c" "P").1 "u" "c" "q").1 = "Error occurred: boom" ∧
    (chat ⟨none, none, none, fun _ => ExcResult.ok "4", some "boom"⟩
      (set_system_prompt none ⟨[], []⟩ "c" "P").1 "u" "c" "q").1 ≠ "4" := by
  decide

/-- **C3 amended.** When the model call succeeds with reply `r` but the
assistant-turn append raises `e`, the single `try/except` around the
whole body catches it: `chat` returns `"Error occurred: " ++ e` instead
of `r`, with the user turn persisted and no assistant turn stored. -/
theorem assistant_append_failure_returns_error (f : Faults) (st : Store)
    (uid cid q sp r e : String)
    (hf1 : f.getPromptFault = none) (hp : get_system_prompt st cid = some sp) (hsp : sp ≠ "")
    (hf2 : f.appendUserFault = none) (hf3 : f.getHistoryFault = none)
    (hwf : WellFormedLog st (session_key uid cid))
    (hinv : ∀ p, f.invokeResult p = ExcResult.ok r)
    (hb : f.appendBotFault = some e) :
    chat f st uid cid q = ("Error occurred: " ++ e,
      store_message st (session_key uid cid) (encodeTurn ⟨"user", q⟩)) := by
  obtain ⟨ls0, _, hfmt⟩ := formatLines_after_user_append st uid cid q hwf
  rw [chat_success_unfold f st uid cid q sp _ hf1 hp hsp hf2 hf3 hfmt]
  simp [hinv, hb]

/-- Witness for the amended C3 at a concrete session. -/
theorem assistant_append_failure_returns_error_witness :
    ("P" : String) ≠ "" ∧
    chat ⟨none, none, none, fun _ => ExcResult.ok "4", some "boom"⟩
      (set_system_prompt none ⟨[], []⟩ "c" "P").1 "u" "c" "q" =
      ("Error occurred: " ++ "boom",
        store_message (set_system_prompt none ⟨[], []⟩ "c" "P").1 (session_key "u" "c")
          (encodeTurn ⟨"user", "q"⟩)) :=
  ⟨by decide, assistant_append_failure_returns_error
    ⟨none, none, none, fun _ => ExcResult.ok "4", some "boom"⟩
    (set_system_prompt none ⟨[], []⟩ "c" "P").1 "u" "c" "q" "P" "4" "boom"
    rfl rfl (by decide) rfl rfl
    (fun m hm => absurd (show m ∈ ([] : List String) from hm) (by simp)) (fun _ => rfl) rfl⟩

/-- **C4.** When the model invocation raises `e` on a registered client
(healthy store, well-formed history), `chat` returns the non-empty
diagnostic `"Error occurred: " ++ e` instead of propagating the failure;
the user turn appended in step 3 remains at the tail of the history and
no assistant turn is appended. -/
theorem model_error_returns_diagnostic (f : Faults) (st : Store) (uid cid q sp e : String)
    (hf1 : f.getPromptFault = none) (hp : get_system_prompt st cid = some sp) (hsp : sp ≠ "")
    (hf2 : f.appendUserFault = none) (hf3 : f.getHistoryFault = none)
    (hwf : WellFormedLog st (session_key uid cid))
    (hinv : ∀ p, f.invokeResult p = ExcResult.exc e) :
    chat f st uid cid q = ("Error occurred: " ++ e,
      store_message st (session_key uid cid) (encodeTurn ⟨"user", q⟩)) ∧
    (chat f st uid cid q).1 ≠ "" ∧
    get_messages (chat f st uid cid q).2 (session_key uid cid) =
      get_messages st (session_key uid cid) ++ [encodeTurn ⟨"user", q⟩] := by
  obtain ⟨ls0, _, hfmt⟩ := formatLines_after_user_append st uid cid q hwf
  have hmain : chat f st uid cid q = ("Error occurred: " ++ e,
      store_message st (session_key uid cid) (encodeTurn ⟨"user", q⟩)) := by
    rw [chat_success_unfold f st uid cid q sp _ hf1 hp hsp hf2 hf3 hfmt]
    simp [hinv]
  refine ⟨hmain, ?_, ?_⟩
  · rw [hmain]
    exact error_string_ne_empty e
  · rw [hmain]
    exact get_messages_store_message st (session_key uid cid) _

/-- Witness for C4 at a concrete session whose model call raises. -/
theorem model_error_returns_diagnostic_witness :
    ("P" : String) ≠ "" ∧
    chat ⟨none, none, none, fun _ => ExcResult.exc "down", none⟩
      (set_system_prompt none ⟨[], []⟩ "c" "P").1 "u" "c" "q" =
      ("Error occurred: " ++ "down",
        store_message (set_system_prompt none ⟨[], []⟩ "c" "P").1 (session_key "u" "c")
          (encodeTurn ⟨"user", "q"⟩)) :=
  ⟨by decide, (model_error_returns_diagnostic
    ⟨none, none, none, fun _ => ExcResult.exc "down", none⟩
    (set_system_prompt none ⟨[], []⟩ "c" "P").1 "u" "c" "q" "P" "down"
    rfl rfl (by decide) rfl rfl
    (fun m hm => absurd (show m ∈ ([] : List String) from hm) (by simp)) (fun _ => rfl)).1⟩

/-- **C5 counterexample.** The spec's assembly equations fail on the
empty history: the code keeps the newline separating the (empty) joined
history from its neighbours, so an extra `\n` appears. -/
theorem assemble_empty_history_counterexample :
    assemble (some "P") [] "q" ≠ "system: P\nuser: q" ∧
    assemble none [] "q" ≠ "user: q" := by
  decide

/-- **C5 amended.** With empty history the empty join still sits between
the header newline and the `\nuser: ` of the trailing line: the result
is `"system: P\n" ++ "\nuser: q"` (blank line in the middle) for a
present prompt and `"\nuser: q"` (leading newline) for an absent one. -/
theorem assemble_empty_history_eq (P q : String) :
    assemble (some P) [] q = "system: " ++ P ++ "\n" ++ "\nuser: " ++ q ∧
    assemble none [] q = "\nuser: " ++ q := by
  constructor
  · apply String.ext
    simp [assemble, joinNL]
  · apply String.ext
    simp [assemble, joinNL]

/-- **C6.** On every successful `chat` (registered non-empty prompt,
healthy store, well-formed log), the text handed to the model contains
the query twice in direct succession: the history line of the user turn
appended in step 3, then the explicit trailing `user: ` line. The model
function is universally quantified, so the argument shape pins down the
exact prompt sent. -/
theorem prompt_contains_query_twice (st : Store) (uid cid q sp : String)
    (mdl : String → String)
    (hp : get_system_prompt st cid = some sp) (hsp : sp ≠ "")
    (hwf : WellFormedLog st (session_key uid cid)) :
    ∃ pre : String, (chat (okFaults mdl) st uid cid q).1 =
      mdl (pre ++ "user: " ++ q ++ "\nuser: " ++ q) := by
  obtain ⟨ls0, _, hfmt⟩ := formatLines_after_user_append st uid cid q hwf
  have hchat := chat_success_unfold (okFaults mdl) st uid cid q sp _ rfl hp hsp rfl rfl hfmt
  rw [hchat]
  have hlit : ("user" : String) ++ ": " = "user: " := rfl
  obtain ⟨pre0, hj⟩ := joinNL_append_one ls0 ("user: " ++ q)
  refine ⟨"system: " ++ sp ++ "\n" ++ pre0, ?_⟩
  simp only [okFaults, hlit, assemble, hj]
  congr 1
  simp [String.append_assoc]

/-- Witness for C6 at a concrete registered client with empty log. -/
theorem prompt_contains_query_twice_witness :
    get_system_prompt ⟨[("system_prompt:c", "P")], []⟩ "c" = some "P" ∧
    ("P" : String) ≠ "" ∧
    ∃ pre : String,
      (chat (okFaults id) ⟨[("system_prompt:c", "P")], []⟩ "u" "c" "q").1 =
        id (pre ++ "user: " ++ "q" ++ "\nuser: " ++ "q") :=
  ⟨rfl, by decide, prompt_contains_query_twice ⟨[("system_prompt:c", "P")], []⟩ "u" "c" "q" "P"
    id rfl (by decide)
    (fun m hm => absurd (show m ∈ ([] : List String) from hm) (by simp))⟩

/-- **C7.** The spec's concrete scenario: client `"15"` has prompt
`"You are helpful."`, session `"12:15"` starts empty, user `"12"` sends
`"What is 2+2?"`, the model answers `"4"`. `chat` returns `"4"` and the
log at `"12:15"` holds exactly the user turn then the assistant turn. -/
theorem scenario_two_plus_two :
    (chat (okFaults (fun _ => "4"))
      (set_system_prompt none ⟨[], []⟩ "15" "You are helpful.").1 "12" "15" "What is 2+2?").1 =
      "4" ∧
    (get_messages (chat (okFaults (fun _ => "4"))
      (set_system_prompt none ⟨[], []⟩ "15" "You are helpful.").1 "12" "15"
      "What is 2+2?").2 "12:15").map decodeTurn =
      [some ⟨"user", "What is 2+2?"⟩, some ⟨"assistant", "4"⟩] := by
  decide

/-- **C8.** Turn serialization round-trips: for every `Turn`, decoding
the encoded record restores it, role and text preserved. -/
theorem turn_serialization_roundtrip (t : Turn) : decodeTurn (encodeTurn t) = some t :=
  decodeTurn_encodeTurn t

/-- **C9.** `chat` is total — by construction it returns a `String` (and
a store) on every input and fault combination — and every failure path
yields a string of the shape `"Error occurred: " ++ e`, a value of the
same type as a genuine model reply; otherwise the result is exactly the
model's reply. -/
theorem chat_total_and_error_prefixed (f : Faults) (st : Store) (uid cid q : String) :
    (∃ e, (chat f st uid cid q).1 = "Error occurred: " ++ e) ∨
    (∃ p r, f.invokeResult p = ExcResult.ok r ∧ (chat f st uid cid q).1 = r) := by
  cases hf1 : f.getPromptFault with
  | some e => exact Or.inl ⟨e, by simp [chat, hf1]⟩
  | none =>
    cases hp : get_system_prompt st cid with
    | none => exact Or.inl ⟨http403Message, by simp [chat, hf1, hp]⟩
    | some sp =>
      by_cases hsp : sp = ""
      · exact Or.inl ⟨http403Message, by simp [chat, hf1, hp, hsp]⟩
      · cases hf2 : f.appendUserFault with
        | some e => exact Or.inl ⟨e, by simp [chat, hf1, hp, hsp, hf2]⟩
        | none =>
          cases hf3 : f.getHistoryFault with
          | some e => exact Or.inl ⟨e, by simp [chat, hf1, hp, hsp, hf2, hf3]⟩
          | none =>
            cases hfmt : formatLines (get_messages (store_message st (session_key uid cid)
                (encodeTurn ⟨"user", q⟩)) (session_key uid cid)) with
            | none =>
              exact Or.inl ⟨jsonDecodeMessage, by simp [chat, hf1, hp, hsp, hf2, hf3, hfmt]⟩
            | some ls =>
              cases hinv : f.invokeResult (assemble (some sp) ls q) with
              | exc e =>
                exact Or.inl ⟨e, by simp [chat, hf1, hp, hsp, hf2, hf3, hfmt, hinv]⟩
              | ok r =>
                cases hb : f.appendBotFault with
                | some e =>
                  exact Or.inl ⟨e, by simp [chat, hf1, hp, hsp, hf2, hf3, hfmt, hinv, hb]⟩
                | none =>
                  exact Or.inr ⟨assemble (some sp) ls q, r, hinv,
                    by simp [chat, hf1, hp, hsp, hf2, hf3, hfmt, hinv, hb]⟩

/-- **C10.** The session key `user_id ++ ":" ++ client_id` is not
injective: the distinct pairs `("a:b", "c")` and `("a", "b:c")` produce
the same key, hence read and append to the same conversation log. -/
theorem session_key_collision :
    session_key "a:b" "c" = session_key "a" "b:c" ∧
    (("a:b", "c") : String × String) ≠ ("a", "b:c") ∧
    (∀ (st : Store) (msg : String),
      store_message st (session_key "a:b" "c") msg =
        store_message st (session_key "a" "b:c") msg) ∧
    (∀ st : Store,
      get_messages st (session_key "a:b" "c") = get_messages st (session_key "a" "b:c")) := by
  have hk : session_key "a:b" "c" = session_key "a" "b:c" := rfl
  exact ⟨hk, by decide, fun st msg => by rw [hk], fun st => by rw [hk]⟩
